import Mathlib

/-!
# Verification of the AHP site-suitability scoring core (`src/app.py`)

Shallow embedding of the `AHPModel` class and the helper functions
`score_to_color` / `score_to_text` from `app.py`, over exact rational
arithmetic (ℚ stands for the Python floats), with dictionaries embedded as
functions.  The site-value dictionary passed to `score` is embedded as
`String → Option ℚ`: `none` is an absent key, mirroring
`site_values.get(sub, 0)`.
-/

namespace GeoData

/-- `self.criteria` from `AHPModel.__init__`. -/
def criteria : List String := ["Technical", "Environmental", "Social"]

/-- `self.sub_criteria` from `AHPModel.__init__` (dict embedded as a function;
keys outside the three criteria are never consulted by the code). -/
def sub_criteria (crit : String) : List String :=
  if crit = "Technical" then
    ["Solar Radiation", "Slope", "Proximity to Grid", "Land Cost"]
  else if crit = "Environmental" then
    ["Land Use", "Distance from Protected Areas", "Water Body Buffer"]
  else if crit = "Social" then
    ["Distance from Roads", "Proximity to Demand Centers", "Population Density"]
  else []

/-- The ten sub-criterion names, in hierarchy order. -/
def allSubs : List String := (criteria.map sub_criteria).flatten

/-- The default `self.main_weights` dict from `AHPModel.__init__`. -/
def default_main_weights (crit : String) : ℚ :=
  if crit = "Technical" then 0.693
  else if crit = "Environmental" then 0.187
  else if crit = "Social" then 0.080
  else 0

/-- `self.sub_weights_local` from `AHPModel.__init__` (fixed constants,
never mutated anywhere in the code). -/
def sub_weights_local (crit sub : String) : ℚ :=
  if crit = "Technical" then
    (if sub = "Solar Radiation" then 0.558
     else if sub = "Slope" then 0.262
     else if sub = "Proximity to Grid" then 0.130
     else if sub = "Land Cost" then 0.050 else 0)
  else if crit = "Environmental" then
    (if sub = "Land Use" then 0.258
     else if sub = "Distance from Protected Areas" then 0.637
     else if sub = "Water Body Buffer" then 0.105 else 0)
  else if crit = "Social" then
    (if sub = "Distance from Roads" then 0.637
     else if sub = "Proximity to Demand Centers" then 0.258
     else if sub = "Population Density" then 0.105 else 0)
  else 0

/-- `AHPModel._compute_global`: global weight = criterion weight × local
weight, for every criterion and sub-criterion. -/
def compute_global (main_weights : String → ℚ) (crit sub : String) : ℚ :=
  main_weights crit * sub_weights_local crit sub

/-- The mutable state of an `AHPModel` instance: `self.main_weights` and the
cached `self.sub_weights_global` (the criteria lists and local weights are
constants shared by all instances). -/
structure AHPModel where
  main_weights : String → ℚ
  sub_weights_global : String → String → ℚ

/-- A model state whose cached global weights are `_compute_global` of its
main weights; `__init__` and `set_main_weight` only ever produce such states. -/
def mkModel (main_weights : String → ℚ) : AHPModel :=
  { main_weights := main_weights
    sub_weights_global := compute_global main_weights }

/-- `AHPModel.__init__`. -/
def AHPModel.init : AHPModel := mkModel default_main_weights

/-- `AHPModel.set_main_weight`: overwrite one criterion weight, then
recompute the cached global weights. -/
def AHPModel.set_main_weight (m : AHPModel) (crit : String) (value : ℚ) :
    AHPModel :=
  mkModel (fun c => if c = crit then value else m.main_weights c)

/-- The running total of `AHPModel.score`: `value × global_weight`
accumulated over every criterion and every sub-criterion under it,
with `float(site_values.get(sub, 0))` embedded as `(site_values sub).getD 0`. -/
def AHPModel.total (m : AHPModel) (site_values : String → Option ℚ) : ℚ :=
  (criteria.map (fun crit =>
    ((sub_criteria crit).map (fun sub =>
      ((site_values sub).getD 0) * m.sub_weights_global crit sub)).sum)).sum

/-- `max_sum` from `AHPModel.score`: the sum of all global weights. -/
def AHPModel.max_sum (m : AHPModel) : ℚ :=
  (criteria.map (fun crit =>
    ((sub_criteria crit).map (fun sub => m.sub_weights_global crit sub)).sum)).sum

/-- `AHPModel.score`: `total / max_sum if max_sum else 0.0`. -/
def AHPModel.score (m : AHPModel) (site_values : String → Option ℚ) : ℚ :=
  if m.max_sum = 0 then 0 else m.total site_values / m.max_sum

/-- `score_to_color` from `app.py`. -/
def score_to_color (score : ℚ) : String :=
  if score ≥ 0.8 then "green"
  else if score ≥ 0.6 then "black"
  else if score ≥ 0.4 then "orange"
  else "red"

/-- `score_to_text` from `app.py`. -/
def score_to_text (score : ℚ) : String :=
  if score ≥ 0.8 then "Highly Suitable"
  else if score ≥ 0.6 then "Moderately Suitable"
  else if score ≥ 0.4 then "Marginally Suitable"
  else "Not Suitable"

/-- Dictionary update `d[key] = x` on a site-value mapping. -/
def updateSv (sv : String → Option ℚ) (key : String) (x : ℚ) :
    String → Option ℚ :=
  fun t => if t = key then some x else sv t

/-- The empty site-value dictionary `{}`. -/
def emptySv : String → Option ℚ := fun _ => none

/-- The site-value dictionary assigning `1.0` to every sub-criterion of the
chosen criterion and `0.0` to everything else. -/
def indicatorSv (crit : String) : String → Option ℚ :=
  fun s => if s ∈ sub_criteria crit then some 1 else some 0

/-- The global weight attached to one sub-criterion name: the cached global
weight under the (unique) criterion whose sub-criterion list contains it. -/
def subGlobal (m : AHPModel) (s : String) : ℚ :=
  (criteria.map (fun crit =>
    if s ∈ sub_criteria crit then m.sub_weights_global crit s else 0)).sum

/-- The contribution of one sub-criterion name to `AHPModel.score`:
its looked-up value times its global weight, divided by `max_sum`
(0 when the guard `max_sum = 0` fires, matching `score`). -/
def contrib (m : AHPModel) (sv : String → Option ℚ) (s : String) : ℚ :=
  if m.max_sum = 0 then 0 else ((sv s).getD 0) * subGlobal m s / m.max_sum

/-- Division as the fallible operation it is in Python: `a / b` raises
`ZeroDivisionError` when `b = 0`. -/
def divE (a b : ℚ) : Except String ℚ :=
  if b = 0 then Except.error "ZeroDivisionError" else Except.ok (a / b)

/-- `AHPModel.score` with its one fallible operation made explicit:
`total / max_sum if max_sum else 0.0` evaluates the division only when
`max_sum` is truthy (nonzero). -/
def AHPModel.scoreE (m : AHPModel) (site_values : String → Option ℚ) :
    Except String ℚ :=
  if m.max_sum = 0 then Except.ok 0 else divE (m.total site_values) m.max_sum

/-- The model states the program can reach: the freshly constructed model,
and anything obtained from a reachable state by `set_main_weight`. -/
inductive Reachable : AHPModel → Prop
  | init : Reachable AHPModel.init
  | set (m : AHPModel) (crit : String) (value : ℚ) :
      Reachable m → Reachable (m.set_main_weight crit value)

/-- Main weights that sum to 1 but include negative entries
(reachable through `set_main_weight`, which validates nothing). -/
def cexMw (c : String) : ℚ :=
  if c = "Technical" then 2
  else if c = "Environmental" then -1/2
  else if c = "Social" then -1/2
  else 0

/-- A site-value dictionary with every stored value in [0,1]: value 1 on the
Technical sub-criteria, 0 on the remaining sub-criteria, absent elsewhere. -/
def cexSv (s : String) : Option ℚ :=
  if s ∈ sub_criteria "Technical" then some 1
  else if s ∈ allSubs then some 0
  else none

/-! ## Helper lemmas -/

lemma criteria_map_sum (f : String → ℚ) :
    (criteria.map f).sum = f "Technical" + f "Environmental" + f "Social" := by
  simp [criteria]
  ring

lemma max_sum_mk (mw : String → ℚ) :
    (mkModel mw).max_sum = mw "Technical" + mw "Environmental" + mw "Social" := by
  simp only [AHPModel.max_sum, mkModel, compute_global, criteria, sub_criteria,
    sub_weights_local, String.reduceEq, reduceIte, List.map_cons, List.map_nil,
    List.sum_cons, List.sum_nil]
  ring

lemma sub_weights_local_nonneg (c s : String) : 0 ≤ sub_weights_local c s := by
  unfold sub_weights_local
  split_ifs <;> norm_num

lemma getD_unit (sv : String → Option ℚ)
    (hv : ∀ s x, sv s = some x → 0 ≤ x ∧ x ≤ 1) (s : String) :
    0 ≤ (sv s).getD 0 ∧ (sv s).getD 0 ≤ 1 := by
  cases h : sv s with
  | none => norm_num
  | some x => simpa using hv s x h

lemma total_bounds (m : AHPModel) (sv : String → Option ℚ)
    (hg : ∀ c ∈ criteria, ∀ s ∈ sub_criteria c, 0 ≤ m.sub_weights_global c s)
    (hv : ∀ s x, sv s = some x → 0 ≤ x ∧ x ≤ 1) :
    0 ≤ m.total sv ∧ m.total sv ≤ m.max_sum := by
  constructor
  · apply List.sum_nonneg
    intro y hy
    simp only [List.mem_map] at hy
    obtain ⟨c, hc, rfl⟩ := hy
    apply List.sum_nonneg
    intro z hz
    simp only [List.mem_map] at hz
    obtain ⟨s, hs, rfl⟩ := hz
    exact mul_nonneg (getD_unit sv hv s).1 (hg c hc s hs)
  · unfold AHPModel.total AHPModel.max_sum
    apply List.sum_le_sum
    intro c hc
    apply List.sum_le_sum
    intro s hs
    calc ((sv s).getD 0) * m.sub_weights_global c s
        ≤ 1 * m.sub_weights_global c s :=
          mul_le_mul_of_nonneg_right (getD_unit sv hv s).2 (hg c hc s hs)
      _ = m.sub_weights_global c s := one_mul _

lemma init_max_sum : AHPModel.init.max_sum = 0.96 := by
  rw [AHPModel.init, max_sum_mk]
  simp only [default_main_weights, String.reduceEq, reduceIte]
  norm_num

lemma mem_allSubs {c s : String} (hc : c ∈ criteria) (hs : s ∈ sub_criteria c) :
    s ∈ allSubs :=
  List.mem_flatten.mpr ⟨sub_criteria c, List.mem_map_of_mem _ hc, hs⟩

/-! ## Claim theorems -/

/-- C2: `score_to_text` follows the threshold ladder top-down with closed
lower bounds: `s ≥ 0.8` gives "Highly Suitable", `0.6 ≤ s < 0.8` gives
"Moderately Suitable", `0.4 ≤ s < 0.6` gives "Marginally Suitable", `s < 0.4`
gives "Not Suitable"; in particular the boundary scores 0.8, 0.6 and 0.4 land
in the upper band. -/
theorem score_to_text_thresholds (s : ℚ) :
    (score_to_text s = "Highly Suitable" ↔ 0.8 ≤ s) ∧
    (score_to_text s = "Moderately Suitable" ↔ 0.6 ≤ s ∧ s < 0.8) ∧
    (score_to_text s = "Marginally Suitable" ↔ 0.4 ≤ s ∧ s < 0.6) ∧
    (score_to_text s = "Not Suitable" ↔ s < 0.4) ∧
    score_to_text 0.8 = "Highly Suitable" ∧
    score_to_text 0.6 = "Moderately Suitable" ∧
    score_to_text 0.4 = "Marginally Suitable" := by
  refine ⟨?_, ?_, ?_, ?_, by norm_num [score_to_text], by norm_num [score_to_text],
    by norm_num [score_to_text]⟩ <;>
  · unfold score_to_text
    split_ifs with h1 h2 h3 <;>
      simp only [String.reduceEq, iff_true, iff_false, true_iff, false_iff,
        ge_iff_le, not_le, not_lt] at * <;>
      first
        | linarith
        | (exact ⟨by linarith, by linarith⟩)
        | (rintro ⟨ha, hb⟩; linarith)

/-- C8: `score_to_color` and `score_to_text` use exactly the same threshold
boundaries: green iff "Highly Suitable", black iff "Moderately Suitable",
orange iff "Marginally Suitable", red iff "Not Suitable". -/
theorem color_text_agree (s : ℚ) :
    (score_to_color s = "green" ↔ score_to_text s = "Highly Suitable") ∧
    (score_to_color s = "black" ↔ score_to_text s = "Moderately Suitable") ∧
    (score_to_color s = "orange" ↔ score_to_text s = "Marginally Suitable") ∧
    (score_to_color s = "red" ↔ score_to_text s = "Not Suitable") := by
  unfold score_to_color score_to_text
  split_ifs <;> simp [String.reduceEq]

/-- C3 counterexample: a single call to `set_main_weight` does not
re-normalize; overwriting the Technical weight with 0.5 leaves the three
stored weights summing to 0.767, not 1. -/
theorem set_main_weight_sum_counterexample :
    (criteria.map (AHPModel.init.set_main_weight "Technical" 0.5).main_weights).sum ≠ 1 := by
  rw [criteria_map_sum]
  simp only [AHPModel.set_main_weight, AHPModel.init, mkModel, default_main_weights,
    String.reduceEq, reduceIte]
  norm_num

/-- C3 (amended): `set_main_weight` overwrites the named criterion weight and
leaves the other weights unchanged (no re-normalization inside the model);
consequently the stored weights sum to 1 exactly when the caller supplies
normalized values, as the reference caller does by setting all three weights
in sequence to values summing to 1. -/
theorem set_main_weight_overwrites (m : AHPModel) (c cOther : String) (v vT vE vS : ℚ)
    (hne : cOther ≠ c) (hsum : vT + vE + vS = 1) :
    (m.set_main_weight c v).main_weights c = v ∧
    (m.set_main_weight c v).main_weights cOther = m.main_weights cOther ∧
    (criteria.map ((((m.set_main_weight "Technical" vT).set_main_weight
        "Environmental" vE).set_main_weight "Social" vS).main_weights)).sum = 1 := by
  refine ⟨by simp [AHPModel.set_main_weight, mkModel],
    by simp [AHPModel.set_main_weight, mkModel, hne], ?_⟩
  rw [criteria_map_sum]
  simp only [AHPModel.set_main_weight, mkModel, String.reduceEq, reduceIte]
  linarith

/-- C3 amended witness at concrete inputs. -/
theorem set_main_weight_overwrites_witness :
    (AHPModel.init.set_main_weight "Technical" 0.5).main_weights "Technical" = 0.5 ∧
    (AHPModel.init.set_main_weight "Technical" 0.5).main_weights "Social" =
      AHPModel.init.main_weights "Social" ∧
    (criteria.map ((((AHPModel.init.set_main_weight "Technical" 0.7).set_main_weight
        "Environmental" 0.2).set_main_weight "Social" 0.1).main_weights)).sum = 1 :=
  set_main_weight_overwrites AHPModel.init "Technical" "Social" 0.5 0.7 0.2 0.1
    (by simp) (by norm_num)

/-- C5: in every reachable model state (the fresh model, and any state
produced by `set_main_weight`), the cached global weight of every
sub-criterion equals its criterion weight times its local weight. -/
theorem global_weights_product (m : AHPModel) (hm : Reachable m) (c s : String) :
    m.sub_weights_global c s = m.main_weights c * sub_weights_local c s := by
  cases hm with
  | init => simp [AHPModel.init, mkModel, compute_global]
  | set m0 c0 v0 hm0 => simp [AHPModel.set_main_weight, mkModel, compute_global]

/-- C5 witness: the invariant at the freshly constructed model. -/
theorem global_weights_product_witness :
    AHPModel.init.sub_weights_global "Technical" "Slope" =
      AHPModel.init.main_weights "Technical" * sub_weights_local "Technical" "Slope" :=
  global_weights_product AHPModel.init Reachable.init "Technical" "Slope"

/-- C9: `score` never raises: the embedding with Python's fallible division
made explicit always returns `Except.ok` of the value `score` computes, and
when the sum of global weights is exactly zero the division is skipped and
the result is 0. -/
theorem scoreE_ok (m : AHPModel) (sv : String → Option ℚ) :
    m.scoreE sv = Except.ok (m.score sv) ∧ (m.max_sum = 0 → m.score sv = 0) := by
  unfold AHPModel.scoreE AHPModel.score divE
  by_cases h : m.max_sum = 0 <;> simp [h]

/-- C9 witness: a model whose global weights sum to zero. -/
theorem scoreE_ok_witness :
    (mkModel (fun _ => 0)).scoreE emptySv =
      Except.ok ((mkModel (fun _ => 0)).score emptySv) ∧
    (mkModel (fun _ => 0)).score emptySv = 0 :=
  ⟨(scoreE_ok (mkModel (fun _ => 0)) emptySv).1,
   (scoreE_ok (mkModel (fun _ => 0)) emptySv).2 (by rw [max_sum_mk]; norm_num)⟩

/-- C4: `score` treats a sub-criterion name absent from the dictionary as
value 0 (inserting an explicit 0 for it changes nothing), and the score of
the empty dictionary is 0 whenever the global-weight sum is nonzero. -/
theorem score_missing_defaults_zero (m : AHPModel) (sv : String → Option ℚ)
    (s : String) (habsent : sv s = none) (hmax : m.max_sum ≠ 0) :
    m.score sv = m.score (updateSv sv s 0) ∧ m.score emptySv = 0 := by
  constructor
  · have hlook : ∀ t, ((updateSv sv s 0 t).getD 0) = ((sv t).getD 0) := by
      intro t
      unfold updateSv
      by_cases ht : t = s
      · rw [if_pos ht, ht, habsent]
        simp
      · rw [if_neg ht]
    simp only [AHPModel.score, AHPModel.total, hlook]
  · unfold AHPModel.score
    rw [if_neg hmax]
    have htot : m.total emptySv = 0 := by
      simp [AHPModel.total, emptySv, criteria]
    rw [htot, zero_div]

/-- C4 witness: the fresh model (global-weight sum 0.96 ≠ 0) on the empty
dictionary, with "Slope" absent. -/
theorem score_missing_defaults_zero_witness :
    AHPModel.init.score emptySv = AHPModel.init.score (updateSv emptySv "Slope" 0) ∧
    AHPModel.init.score emptySv = 0 :=
  score_missing_defaults_zero AHPModel.init emptySv "Slope" rfl
    (by rw [init_max_sum]; norm_num)

/-- C10: `score` reads its input dictionary only at the ten known
sub-criterion names: two dictionaries agreeing on those names get the same
score, so extra keys are ignored. -/
theorem score_ignores_unknown_keys (m : AHPModel) (sv1 sv2 : String → Option ℚ)
    (h : ∀ s ∈ allSubs, sv1 s = sv2 s) :
    m.score sv1 = m.score sv2 := by
  have htot : m.total sv1 = m.total sv2 := by
    unfold AHPModel.total
    congr 1
    apply List.map_congr_left
    intro c hc
    congr 1
    apply List.map_congr_left
    intro s hs
    rw [h s (mem_allSubs hc hs)]
  unfold AHPModel.score
  rw [htot]

/-- C6: with criterion weights summing to 1, scoring the dictionary that puts
1.0 on every sub-criterion of one chosen criterion and 0.0 elsewhere returns
exactly that criterion's top-level weight. -/
theorem score_indicator_eq_weight (mw : String → ℚ) (c : String)
    (hc : c ∈ criteria) (hsum : (criteria.map mw).sum = 1) :
    (mkModel mw).score (indicatorSv c) = mw c := by
  have hmax : (mkModel mw).max_sum = 1 := by
    rw [max_sum_mk]
    rw [criteria_map_sum] at hsum
    linarith
  unfold AHPModel.score
  rw [hmax, if_neg one_ne_zero, div_one]
  simp only [criteria, List.mem_cons, List.not_mem_nil, or_false] at hc
  rcases hc with rfl | rfl | rfl <;>
    simp [AHPModel.total, mkModel, compute_global, criteria, sub_criteria,
      indicatorSv, sub_weights_local] <;>
    ring

/-- C6 witness: weights (0.7, 0.2, 0.1) and the Environmental indicator
dictionary give score 0.2. -/
theorem score_indicator_eq_weight_witness :
    (mkModel (fun c => if c = "Technical" then 0.7
      else if c = "Environmental" then 0.2
      else if c = "Social" then 0.1 else 0)).score (indicatorSv "Environmental") =
    (fun c => if c = "Technical" then (0.7 : ℚ)
      else if c = "Environmental" then 0.2
      else if c = "Social" then 0.1 else 0) "Environmental" :=
  score_indicator_eq_weight _ "Environmental" (by simp [criteria])
    (by
      rw [criteria_map_sum]
      simp only [String.reduceEq, reduceIte]
      norm_num)

/-- C1 counterexample: the claim quantifies only over the two sum-to-1
conditions, but `set_main_weight` accepts negative weights; with criterion
weights (2, -1/2, -1/2), which sum to 1, and a site-value dictionary whose
stored values are all 0 or 1, the score is 2, outside [0,1]. -/
theorem score_unit_interval_counterexample :
    (criteria.map cexMw).sum = 1 ∧
    (allSubs.all fun s => decide (0 ≤ (cexSv s).getD 0 ∧ (cexSv s).getD 0 ≤ 1)) = true ∧
    ¬ (mkModel cexMw).score cexSv ≤ 1 := by
  refine ⟨?_, ?_, ?_⟩
  · rw [criteria_map_sum]
    simp only [cexMw, String.reduceEq, reduceIte]
    norm_num
  · simp [allSubs, criteria, sub_criteria, cexSv]
  · have h2 : (mkModel cexMw).score cexSv = 2 := by
      simp only [AHPModel.score, AHPModel.total, AHPModel.max_sum, mkModel,
        compute_global, criteria, sub_criteria, sub_weights_local, cexMw, cexSv,
        allSubs, String.reduceEq, reduceIte, List.map, List.sum_cons, List.sum_nil,
        List.flatten, List.mem_cons, List.mem_singleton, List.not_mem_nil,
        List.append_assoc, List.cons_append, List.nil_append, Option.getD_some]
      norm_num
    rw [h2]
    norm_num

/-- C1 (amended): for nonnegative criterion weights summing to 1 (the local
weights are fixed constants each summing to 1) and site values all in [0,1],
`score` lies in [0,1]; and the result is not clamped: the fresh model scored
on all-2.0 site values returns a score above 1. -/
theorem score_unit_interval :
    (∀ (mw : String → ℚ) (sv : String → Option ℚ),
      (∀ c ∈ criteria, 0 ≤ mw c) →
      (criteria.map mw).sum = 1 →
      (∀ s x, sv s = some x → 0 ≤ x ∧ x ≤ 1) →
      0 ≤ (mkModel mw).score sv ∧ (mkModel mw).score sv ≤ 1) ∧
    1 < AHPModel.init.score (fun _ => some 2) := by
  constructor
  · intro mw sv h0 h1 hv
    have hg : ∀ c ∈ criteria, ∀ s ∈ sub_criteria c,
        0 ≤ (mkModel mw).sub_weights_global c s := by
      intro c hc s _
      exact mul_nonneg (h0 c hc) (sub_weights_local_nonneg c s)
    have hb := total_bounds (mkModel mw) sv hg hv
    have hmax : (mkModel mw).max_sum = 1 := by
      rw [max_sum_mk]
      rw [criteria_map_sum] at h1
      linarith
    rw [hmax] at hb
    unfold AHPModel.score
    rw [hmax, if_neg one_ne_zero, div_one]
    exact hb
  · have h2 : AHPModel.init.score (fun _ => some 2) = 2 := by
      unfold AHPModel.score
      rw [init_max_sum, if_neg (by norm_num)]
      simp only [AHPModel.total, AHPModel.init, mkModel, compute_global, criteria,
        sub_criteria, default_main_weights, sub_weights_local, String.reduceEq,
        reduceIte, List.map_cons, List.map_nil, List.sum_cons, List.sum_nil,
        Option.getD_some]
      norm_num
    rw [h2]
    norm_num

/-- C1 amended witness: uniform-ish weights (1/2, 1/4, 1/4) and all site
values 1/2. -/
theorem score_unit_interval_witness :
    0 ≤ (mkModel (fun c => if c = "Technical" then 1/2
        else if c = "Environmental" then 1/4
        else if c = "Social" then 1/4 else 0)).score (fun _ => some (1/2)) ∧
    (mkModel (fun c => if c = "Technical" then 1/2
        else if c = "Environmental" then 1/4
        else if c = "Social" then 1/4 else 0)).score (fun _ => some (1/2)) ≤ 1 :=
  score_unit_interval.1 _ _
    (by intro c _; split_ifs <;> norm_num)
    (by
      rw [criteria_map_sum]
      simp only [String.reduceEq, reduceIte]
      norm_num)
    (by
      intro s x hx
      injection hx with h
      subst h
      norm_num)

/-- C7: `score` is a weighted sum, linear in each site value separately: it
decomposes as the sum over the ten sub-criteria of their contributions
(looked-up value × global weight ÷ `max_sum`, with the same zero guard);
scaling the value stored at one name by k scales that name's contribution by
k, and updating the value at one name leaves every other name's contribution
unchanged. -/
theorem score_linear (m : AHPModel) (sv : String → Option ℚ) (s t : String)
    (k x : ℚ) (ht : t ≠ s) :
    m.score sv = (allSubs.map (contrib m sv)).sum ∧
    contrib m (updateSv sv s (k * ((sv s).getD 0))) s = k * contrib m sv s ∧
    contrib m (updateSv sv s x) t = contrib m sv t := by
  refine ⟨?_, ?_, ?_⟩
  · by_cases hmax : m.max_sum = 0
    · simp [AHPModel.score, contrib, hmax, allSubs, criteria, sub_criteria]
    · unfold AHPModel.score contrib subGlobal AHPModel.total allSubs
      rw [if_neg hmax]
      simp [criteria, sub_criteria, if_neg hmax]
      field_simp
      ring
  · unfold contrib updateSv
    by_cases hmax : m.max_sum = 0
    · simp [hmax]
    · rw [if_neg hmax, if_neg hmax, if_pos rfl]
      simp only [Option.getD_some]
      ring
  · simp only [contrib, updateSv, if_neg ht]

/-- C7 witness at the fresh model, scaling "Slope" by 3 and checking
"Land Use" is untouched by an update at "Slope". -/
theorem score_linear_witness :
    AHPModel.init.score (fun _ => some (1/2)) =
      (allSubs.map (contrib AHPModel.init (fun _ => some (1/2)))).sum ∧
    contrib AHPModel.init
        (updateSv (fun _ => some (1/2)) "Slope"
          (3 * ((some ((1:ℚ)/2)).getD 0))) "Slope" =
      3 * contrib AHPModel.init (fun _ => some (1/2)) "Slope" ∧
    contrib AHPModel.init (updateSv (fun _ => some (1/2)) "Slope" 7) "Land Use" =
      contrib AHPModel.init (fun _ => some (1/2)) "Land Use" :=
  score_linear AHPModel.init (fun _ => some (1/2)) "Slope" "Land Use" 3 7
    (by simp)

/-- C10 witness: an empty dictionary versus one holding only the unknown key
"Latitude". -/
theorem score_ignores_unknown_keys_witness :
    AHPModel.init.score (fun _ => none) =
      AHPModel.init.score (fun t => if t = "Latitude" then some 5 else none) :=
  score_ignores_unknown_keys AHPModel.init (fun _ => none)
    (fun t => if t = "Latitude" then some 5 else none)
    (by intro s hs; fin_cases hs <;> rfl)

end GeoData
